import Mathlib

/-!
Verification of the multimodal message adapter of the tanstack-ai chat demo
(`src/lib/multimodal.ts`): the pure transformation from stored conversation
history, new user input and attachments into the wire-shaped message array.
The definitions below are a shallow embedding of the TypeScript source;
JavaScript strings are modelled as Lean `String` (lists of characters),
`undefined`-able arrays as `Option (List _)`.
-/

/-- The set of characters removed by JavaScript's String.prototype.trim:
ECMAScript WhiteSpace (TAB, VT, FF, SP, NBSP, ZWNBSP and the Unicode
Space_Separator category) together with the line terminators LF, CR, LS, PS. -/
def isJsWhitespace (c : Char) : Bool :=
  c = '\t' || c = '\x0b' || c = '\x0c' || c = ' ' || c = '\u00a0' || c = '\ufeff' ||
  c = '\n' || c = '\r' || c = '\u2028' || c = '\u2029' ||
  c = '\u1680' || ('\u2000' ≤ c && c ≤ '\u200a') || c = '\u202f' || c = '\u205f' || c = '\u3000'

/-- JavaScript `.trim()` on a character list: drop the leading whitespace run
and the trailing whitespace run. -/
def trimChars (l : List Char) : List Char :=
  ((l.dropWhile isJsWhitespace).reverse.dropWhile isJsWhitespace).reverse

/-- JavaScript `.trim()` on strings. -/
def trimStr (s : String) : String :=
  String.mk (trimChars s.data)

/-- The `AttachedFile` record (src/types): identifier, display name, MIME type,
byte size, `data` (a data-URL-encoded string) and a display-only preview.
The adapter only ever reads the `data` field. -/
structure AttachedFile where
  id : String
  name : String
  mimeType : String
  size : Nat
  data : String
  preview : String
deriving DecidableEq

/-- Message roles: `'user' | 'assistant'`. -/
inductive Role where
  | user
  | assistant
deriving DecidableEq

/-- A stored conversation turn (src/types `Message`): role, text content,
creation timestamp and an optional attachment list. The adapter reads only
`role` and `content`. -/
structure Message where
  role : Role
  content : String
  timestamp : Nat
  files : Option (List AttachedFile)
deriving DecidableEq

/-- The tag of an image source: inline base64 payload (`data`) or URL. -/
inductive SourceKind where
  | data
  | url
deriving DecidableEq

/-- An image source: `{type: 'data' | 'url', value: string}`. -/
structure ImageSource where
  kind : SourceKind
  value : String
deriving DecidableEq

/-- A wire content part: `{type: 'text', content}` or `{type: 'image', source}`. -/
inductive ContentPart where
  | text (content : String)
  | image (source : ImageSource)
deriving DecidableEq

/-- The content of a formatted turn: `string | ContentPart[]`. -/
inductive MessageContent where
  | str (s : String)
  | parts (ps : List ContentPart)
deriving DecidableEq

/-- A wire turn: `{role: 'user' | 'assistant', content: string | ContentPart[]}`. -/
structure FormattedMessage where
  role : Role
  content : MessageContent
deriving DecidableEq

/-- Provider enumeration: `'openai' | 'anthropic' | 'gemini' | 'ollama'`. -/
inductive ProviderType where
  | openai
  | anthropic
  | gemini
  | ollama
deriving DecidableEq

/-- The characters `data:` of the data-URL scheme. -/
def dataScheme : List Char := ['d', 'a', 't', 'a', ':']

/-- The characters `;base64,` separating the media type from the payload. -/
def base64Marker : List Char := [';', 'b', 'a', 's', 'e', '6', '4', ',']

/-- The match `dataUrl.match(/^data:([^;]+);base64,(.+)$/s)` of `parseDataUrl`.
The first group excludes the semicolon, so it can only reach up to the first
semicolon after the scheme; backtracking it to a shorter match would place the
literal semicolon at a non-semicolon character and fail.  Hence the regex
matches exactly the strings of the form `data:` ++ m ++ `;base64,` ++ p where
m is the maximal semicolon-free run after the scheme, m is nonempty, the text
after m starts with `;base64,`, and the remainder p is nonempty (with the `s`
flag, `.` matches every character including newlines, and `$` anchors at the
very end of the string); the captured groups are then (m, p). -/
def matchDataUrl (l : List Char) : Option (List Char × List Char) :=
  if l.take 5 = dataScheme then
    if (l.drop 5).takeWhile (fun c => c != ';') = [] then none
    else if ((l.drop 5).dropWhile (fun c => c != ';')).take 8 = base64Marker then
      if ((l.drop 5).dropWhile (fun c => c != ';')).drop 8 = [] then none
      else some ((l.drop 5).takeWhile (fun c => c != ';'),
                 ((l.drop 5).dropWhile (fun c => c != ';')).drop 8)
    else none
  else none

/-- The result record of `parseDataUrl`: `{mediaType, base64Data}`. -/
structure ParsedDataUrl where
  mediaType : String
  base64Data : String
deriving DecidableEq

/-- `parseDataUrl`: extract the raw base64 payload from a data URL; on a match
return the captured media type and the trimmed payload, otherwise fall back to
`image/png` with the whole (trimmed) input as payload. -/
def parseDataUrl (dataUrl : String) : ParsedDataUrl :=
  match matchDataUrl dataUrl.data with
  | some (m, p) => ⟨String.mk m, String.mk (trimChars p)⟩
  | none => ⟨"image/png", String.mk (trimChars dataUrl.data)⟩

/-- `formatImageForProvider`: the provider-specific image content part.  The
`switch` sends `anthropic` and `gemini` to the inline-base64 encoding and
`openai` together with the `default` case (hence `ollama`) to the URL
encoding carrying the original `file.data` string. -/
def formatImageForProvider (file : AttachedFile) (provider : ProviderType) : ContentPart :=
  match provider with
  | ProviderType.anthropic | ProviderType.gemini =>
      ContentPart.image ⟨SourceKind.data, (parseDataUrl file.data).base64Data⟩
  | ProviderType.openai | ProviderType.ollama =>
      ContentPart.image ⟨SourceKind.url, file.data⟩

/-- `formatMessageContent`: one text part followed by one image part per file. -/
def formatMessageContent (text : String) (files : List AttachedFile)
    (provider : ProviderType) : List ContentPart :=
  ContentPart.text text :: files.map (fun file => formatImageForProvider file provider)

/-- `const hasFiles = files && files.length > 0`: a missing (`undefined`) array
is falsy, a present array contributes its emptiness test. -/
def hasAttachments : Option (List AttachedFile) → Bool
  | some fs => decide (0 < fs.length)
  | none => false

/-- The filter predicate `(m) => m.content && m.content.trim().length > 0` of
branch 2: JavaScript string truthiness is non-emptiness. -/
def hasNonBlankContent (m : Message) : Bool :=
  !(m.content == "") && decide (0 < (trimStr m.content).length)

/-- `buildMessagesForStream`: the full message array for streaming.  Branch 1
(no attachments, or no vision support) passes history through as role+content
and appends the plain-text user turn; branch 2 filters blank history turns and
appends the multimodal user turn.  The TypeScript default `provider = 'openai'`
is modelled by callers passing the provider explicitly. -/
def buildMessagesForStream (messages : List Message) (userContent : String)
    (files : Option (List AttachedFile)) (supportsVision : Bool)
    (provider : ProviderType) : List FormattedMessage :=
  if !hasAttachments files || !supportsVision then
    messages.map (fun m => ⟨m.role, MessageContent.str m.content⟩) ++
      [⟨Role.user, MessageContent.str userContent⟩]
  else
    (messages.filter hasNonBlankContent).map
        (fun m => ⟨m.role, MessageContent.str m.content⟩) ++
      [⟨Role.user, MessageContent.parts
          (formatMessageContent userContent (files.getD []) provider)⟩]

example : parseDataUrl "data:image/jpeg;base64,AAAA" = ⟨"image/jpeg", "AAAA"⟩ := by decide

example : parseDataUrl "hello" = ⟨"image/png", "hello"⟩ := by decide

example : parseDataUrl " raw " = ⟨"image/png", "raw"⟩ := by decide

example : parseDataUrl "data:a;base64, x\ny " = ⟨"a", "x\ny"⟩ := by decide

example : parseDataUrl "data:;base64,x" = ⟨"image/png", "data:;base64,x"⟩ := by decide

/-- On a semicolon-free block followed by a semicolon, the takeWhile of the
match stops exactly at the semicolon, and dropWhile keeps the rest. -/
theorem takeWhile_eq_of_semifree (m rest : List Char) (h : ∀ c ∈ m, c ≠ ';') :
    (m ++ ';' :: rest).takeWhile (fun c => c != ';') = m ∧
    (m ++ ';' :: rest).dropWhile (fun c => c != ';') = ';' :: rest := by
  induction m with
  | nil =>
    constructor
    · rfl
    · rfl
  | cons a as ih =>
    have ha : (a != ';') = true := by
      have hne := h a (List.mem_cons_self a as)
      simp [bne_iff_ne, hne]
    have ih2 := ih (fun c hc => h c (List.mem_cons_of_mem a hc))
    constructor
    · simp only [List.cons_append, List.takeWhile_cons, ha, if_true, ih2.1]
    · simp only [List.cons_append, List.dropWhile_cons, ha, if_true, ih2.2]

/-- Soundness of the regex model: a well-formed data URL is matched and the
captured groups are the media type and the payload. -/
theorem matchDataUrl_of_decomp (m p : List Char) (hm : m ≠ [])
    (hsemi : ∀ c ∈ m, c ≠ ';') (hp : p ≠ []) :
    matchDataUrl (dataScheme ++ m ++ base64Marker ++ p) = some (m, p) := by
  have hassoc : dataScheme ++ m ++ base64Marker ++ p
      = dataScheme ++ (m ++ (';' :: (['b', 'a', 's', 'e', '6', '4', ','] ++ p))) := by
    rw [List.append_assoc, List.append_assoc]
    rfl
  rw [hassoc]
  have htw := takeWhile_eq_of_semifree m (['b', 'a', 's', 'e', '6', '4', ','] ++ p) hsemi
  unfold matchDataUrl
  simp only [show (dataScheme ++ (m ++ (';' :: (['b', 'a', 's', 'e', '6', '4', ','] ++ p)))).take 5
      = dataScheme from rfl,
    show (dataScheme ++ (m ++ (';' :: (['b', 'a', 's', 'e', '6', '4', ','] ++ p)))).drop 5
      = m ++ (';' :: (['b', 'a', 's', 'e', '6', '4', ','] ++ p)) from rfl,
    htw.1, htw.2, if_pos rfl]
  rw [if_neg hm]
  rw [if_pos (show (';' :: (['b', 'a', 's', 'e', '6', '4', ','] ++ p)).take 8 = base64Marker
      from rfl)]
  rw [show (';' :: (['b', 'a', 's', 'e', '6', '4', ','] ++ p)).drop 8 = p from rfl]
  rw [if_neg hp]
  simp

/-- Completeness of the regex model: a successful match decomposes the input
as a well-formed data URL with the captured groups. -/
theorem decomp_of_matchDataUrl (l m p : List Char)
    (h : matchDataUrl l = some (m, p)) :
    l = dataScheme ++ m ++ base64Marker ++ p ∧ m ≠ [] ∧ (∀ c ∈ m, c ≠ ';') ∧ p ≠ [] := by
  unfold matchDataUrl at h
  by_cases h5 : l.take 5 = dataScheme
  · rw [if_pos h5] at h
    by_cases hm0 : (l.drop 5).takeWhile (fun c => c != ';') = []
    · rw [if_pos hm0] at h; cases h
    · rw [if_neg hm0] at h
      by_cases h8 : ((l.drop 5).dropWhile (fun c => c != ';')).take 8 = base64Marker
      · rw [if_pos h8] at h
        by_cases hp0 : ((l.drop 5).dropWhile (fun c => c != ';')).drop 8 = []
        · rw [if_pos hp0] at h; cases h
        · rw [if_neg hp0] at h
          simp only [Option.some.injEq, Prod.mk.injEq] at h
          obtain ⟨rfl, rfl⟩ := h
          refine ⟨?_, hm0, ?_, hp0⟩
          · calc l = l.take 5 ++ l.drop 5 := (List.take_append_drop 5 l).symm
              _ = dataScheme ++ ((l.drop 5).takeWhile (fun c => c != ';') ++
                    (l.drop 5).dropWhile (fun c => c != ';')) := by
                  rw [h5, List.takeWhile_append_dropWhile]
              _ = dataScheme ++ ((l.drop 5).takeWhile (fun c => c != ';') ++
                    (((l.drop 5).dropWhile (fun c => c != ';')).take 8 ++
                     ((l.drop 5).dropWhile (fun c => c != ';')).drop 8)) := by
                  rw [List.take_append_drop]
              _ = dataScheme ++ (l.drop 5).takeWhile (fun c => c != ';') ++ base64Marker ++
                    ((l.drop 5).dropWhile (fun c => c != ';')).drop 8 := by
                  rw [h8, List.append_assoc, List.append_assoc]
          · intro c hc
            have := List.mem_takeWhile_imp hc
            simpa [bne_iff_ne] using this
      · rw [if_neg h8] at h; cases h
  · rw [if_neg h5] at h; cases h

/-- A character list is a well-formed data URL: `data:` ++ m ++ `;base64,` ++ p
with m a nonempty semicolon-free media type and p a nonempty payload. -/
def MatchesDataUrlGrammar (l : List Char) : Prop :=
  ∃ m p, m ≠ [] ∧ (∀ c ∈ m, c ≠ ';') ∧ p ≠ [] ∧ l = dataScheme ++ m ++ base64Marker ++ p

theorem not_matches_of_matchDataUrl_none (l : List Char) (h : matchDataUrl l = none) :
    ¬ MatchesDataUrlGrammar l := by
  rintro ⟨m, p, hm, hsemi, hp, rfl⟩
  rw [matchDataUrl_of_decomp m p hm hsemi hp] at h
  cases h

theorem matches_of_matchDataUrl_some (l m p : List Char)
    (h : matchDataUrl l = some (m, p)) : MatchesDataUrlGrammar l := by
  obtain ⟨hl, hm, hsemi, hp⟩ := decomp_of_matchDataUrl l m p h
  exact ⟨m, p, hm, hsemi, hp, hl⟩

/-- Claim C5: for every string of the data-URL grammar `data:` m `;base64,` p
(m nonempty and semicolon-free, p nonempty, possibly containing newlines and
whitespace), parseDataUrl returns mediaType m and base64Data p trimmed of
leading and trailing whitespace. -/
theorem parseDataUrl_valid_dataUrl (m p : List Char) (hm : m ≠ [])
    (hsemi : ∀ c ∈ m, c ≠ ';') (hp : p ≠ []) :
    parseDataUrl (String.mk (dataScheme ++ m ++ base64Marker ++ p))
      = ⟨String.mk m, String.mk (trimChars p)⟩ := by
  unfold parseDataUrl
  rw [show (String.mk (dataScheme ++ m ++ base64Marker ++ p)).data
      = dataScheme ++ m ++ base64Marker ++ p from rfl]
  rw [matchDataUrl_of_decomp m p hm hsemi hp]

theorem parseDataUrl_valid_dataUrl_witness :
    parseDataUrl "data:image/jpeg;base64, AAAA " = ⟨"image/jpeg", "AAAA"⟩ := by
  have h := parseDataUrl_valid_dataUrl ("image/jpeg".data) (" AAAA ".data)
      (by decide) (by decide) (by decide)
  rw [show String.mk (dataScheme ++ "image/jpeg".data ++ base64Marker ++ " AAAA ".data)
      = "data:image/jpeg;base64, AAAA " by decide] at h
  rw [h]
  decide

/-- Claim C6: on every string that does not match the data-URL grammar
(in particular every string without the data: scheme), parseDataUrl never
fails and returns mediaType image/png with the whole trimmed input as payload. -/
theorem parseDataUrl_fallback (s : String) (h : ¬ MatchesDataUrlGrammar s.data) :
    parseDataUrl s = ⟨"image/png", trimStr s⟩ := by
  unfold parseDataUrl
  cases hm : matchDataUrl s.data with
  | none => rfl
  | some mp =>
    exact absurd (matches_of_matchDataUrl_some s.data mp.1 mp.2 (by rw [hm])) h

theorem parseDataUrl_fallback_witness :
    parseDataUrl " hello " = ⟨"image/png", "hello"⟩ := by
  have h := parseDataUrl_fallback " hello "
      (not_matches_of_matchDataUrl_none (" hello ".data) (by decide))
  rw [h]
  decide

/-- Claim C1: for every attached file and provider, formatImageForProvider
returns exactly one image content part; for anthropic and gemini the source is
kind data with the base64 payload parsed from the file's data field, for
openai, ollama and every other (default) case the source is kind url carrying
the original file data string unmodified. -/
theorem formatImageForProvider_policy (file : AttachedFile) (provider : ProviderType) :
    formatImageForProvider file provider
      = (if provider = ProviderType.anthropic ∨ provider = ProviderType.gemini then
          ContentPart.image ⟨SourceKind.data, (parseDataUrl file.data).base64Data⟩
        else
          ContentPart.image ⟨SourceKind.url, file.data⟩) := by
  cases provider <;> rfl

/-- Whether a content part is an image part. -/
def isImagePart : ContentPart → Bool
  | ContentPart.image _ => true
  | ContentPart.text _ => false

/-- Claim C4: for every text (including the empty string), attachment list and
provider, the assembled content is one text part carrying the text first,
followed by one image part per attachment in input order; in particular for
text "hello" and attachments [a, b] it is [text "hello", image a, image b]. -/
theorem formatMessageContent_shape (text : String) (files : List AttachedFile)
    (provider : ProviderType) :
    (formatMessageContent text files provider).length = files.length + 1 ∧
    (formatMessageContent text files provider)[0]? = some (ContentPart.text text) ∧
    (∀ i : Nat, (formatMessageContent text files provider)[i + 1]?
        = (files[i]?).map (fun file => formatImageForProvider file provider)) ∧
    ((formatMessageContent text files provider).drop 1).all isImagePart = true := by
  refine ⟨?_, ?_, ?_, ?_⟩
  · simp [formatMessageContent]
  · simp [formatMessageContent]
  · intro i
    simp [formatMessageContent, List.getElem?_map]
  · simp only [formatMessageContent, List.drop_succ_cons, List.drop_zero]
    rw [List.all_eq_true]
    intro part hmem
    obtain ⟨f, hf, rfl⟩ := List.mem_map.mp hmem
    cases provider <;> rfl

/-- Claim C3: with an undefined or empty attachment list, or with the vision
flag false, buildMessagesForStream returns the prior history mapped to role
and content only (no turn dropped, order preserved) followed by the one plain
text user turn; any attachments supplied in this branch are silently dropped
for every provider. -/
theorem buildMessagesForStream_plain_branch (messages : List Message) (userContent : String)
    (files : Option (List AttachedFile)) (supportsVision : Bool) (provider : ProviderType)
    (h : files = none ∨ files = some [] ∨ supportsVision = false) :
    buildMessagesForStream messages userContent files supportsVision provider
      = messages.map (fun m => ⟨m.role, MessageContent.str m.content⟩) ++
        [⟨Role.user, MessageContent.str userContent⟩] := by
  have hcond : (!hasAttachments files || !supportsVision) = true := by
    rcases h with rfl | rfl | rfl
    · rfl
    · rfl
    · simp
  unfold buildMessagesForStream
  rw [if_pos hcond]

/-- A sample attachment used to evaluate the theorems on concrete inputs. -/
def sampleFile : AttachedFile :=
  ⟨"1", "pic.png", "image/png", 4, "data:image/png;base64,AAAA", "p"⟩

theorem buildMessagesForStream_plain_branch_witness :
    buildMessagesForStream [⟨Role.assistant, "ok", 0, none⟩] "hi" (some [sampleFile]) false
        ProviderType.openai
      = [⟨Role.assistant, MessageContent.str "ok"⟩, ⟨Role.user, MessageContent.str "hi"⟩] := by
  rw [buildMessagesForStream_plain_branch _ _ _ _ _ (Or.inr (Or.inr rfl))]
  rfl

/-- Claim C7: an undefined attachment list behaves exactly as an empty one, and
a vision-capable call with zero attachments still takes the plain-text branch. -/
theorem buildMessagesForStream_undefined_eq_empty (messages : List Message)
    (userContent : String) (supportsVision : Bool) (provider : ProviderType) :
    buildMessagesForStream messages userContent none supportsVision provider
      = buildMessagesForStream messages userContent (some []) supportsVision provider ∧
    buildMessagesForStream messages userContent (some []) true provider
      = messages.map (fun m => ⟨m.role, MessageContent.str m.content⟩) ++
        [⟨Role.user, MessageContent.str userContent⟩] := by
  constructor
  · rfl
  · rfl

/-- Claim C9: buildMessagesForStream is deterministic (referentially
transparent): two calls on equal inputs return equal results.  The function is
a pure Lean definition over its arguments, so it reads no outside state. -/
theorem buildMessagesForStream_deterministic (messages₁ messages₂ : List Message)
    (u₁ u₂ : String) (f₁ f₂ : Option (List AttachedFile)) (v₁ v₂ : Bool)
    (p₁ p₂ : ProviderType) (h₁ : messages₁ = messages₂) (h₂ : u₁ = u₂) (h₃ : f₁ = f₂)
    (h₄ : v₁ = v₂) (h₅ : p₁ = p₂) :
    buildMessagesForStream messages₁ u₁ f₁ v₁ p₁
      = buildMessagesForStream messages₂ u₂ f₂ v₂ p₂ := by
  rw [h₁, h₂, h₃, h₄, h₅]

theorem buildMessagesForStream_deterministic_witness :
    buildMessagesForStream [] "hi" none false ProviderType.openai
      = buildMessagesForStream [] "hi" none false ProviderType.openai :=
  buildMessagesForStream_deterministic [] [] "hi" "hi" none none false false
    ProviderType.openai ProviderType.openai rfl rfl rfl rfl rfl

/-- In branch 2 (attachments present, vision supported) the history is
filtered to non-blank turns and the multimodal user turn is appended. -/
theorem buildMessagesForStream_vision_branch (messages : List Message) (userContent : String)
    (fs : List AttachedFile) (provider : ProviderType) (hfs : fs ≠ []) :
    buildMessagesForStream messages userContent (some fs) true provider
      = (messages.filter hasNonBlankContent).map
          (fun m => ⟨m.role, MessageContent.str m.content⟩) ++
        [⟨Role.user, MessageContent.parts (formatMessageContent userContent fs provider)⟩] := by
  have hcond : ¬ ((!hasAttachments (some fs) || !true) = true) := by
    simp [hasAttachments, List.length_pos, hfs]
  unfold buildMessagesForStream
  rw [if_neg hcond]
  rfl

/-- Claim C2 as stated is refuted by branch 1: with no attachments the prior
history is passed through unchanged, so a blank-content history turn does
reach the returned array. -/
theorem blank_history_turn_reaches_wire :
    buildMessagesForStream [⟨Role.user, "  ", 0, none⟩] "hi" none false ProviderType.openai
      = [⟨Role.user, MessageContent.str "  "⟩, ⟨Role.user, MessageContent.str "hi"⟩] ∧
    trimStr "  " = "" := by
  constructor
  · rfl
  · decide

/-- Claim C2 (amended): when attachments are present and vision is supported,
no message in the returned array has string content that is empty after
trimming; blank prior-history turns are dropped entirely. -/
theorem no_blank_turn_in_vision_branch (messages : List Message) (userContent : String)
    (fs : List AttachedFile) (provider : ProviderType) (hfs : fs ≠ []) :
    ∀ fm ∈ buildMessagesForStream messages userContent (some fs) true provider,
      ∀ s, fm.content = MessageContent.str s → trimStr s ≠ "" := by
  intro fm hmem s hs
  rw [buildMessagesForStream_vision_branch messages userContent fs provider hfs] at hmem
  rcases List.mem_append.mp hmem with hmem | hmem
  · obtain ⟨m, hmf, rfl⟩ := List.mem_map.mp hmem
    have hfilter := (List.mem_filter.mp hmf).2
    simp only [hasNonBlankContent, Bool.and_eq_true, decide_eq_true_eq] at hfilter
    have hlen : 0 < (trimStr m.content).length := hfilter.2
    injection hs with hs2
    subst hs2
    intro heq
    rw [heq] at hlen
    exact absurd hlen (by decide)
  · rw [List.mem_singleton] at hmem
    subst hmem
    cases hs

theorem no_blank_turn_in_vision_branch_witness :
    trimStr "ok" ≠ "" :=
  no_blank_turn_in_vision_branch [⟨Role.assistant, "ok", 0, none⟩] "hi" [sampleFile]
    ProviderType.openai (by decide) ⟨Role.assistant, MessageContent.str "ok"⟩ (by decide)
    "ok" rfl

theorem getLast?_append_singleton (l : List FormattedMessage) (a : FormattedMessage) :
    (l ++ [a]).getLast? = some a := by
  rw [List.getLast?_append_cons]
  rfl

theorem append_singleton_ne_nil (l : List FormattedMessage) (a : FormattedMessage) :
    l ++ [a] ≠ [] := by
  simp

/-- Claim C10: the returned array is never empty and its last element is the
newly appended current user turn — plain text in branch 1, the assembled
content parts in branch 2 — appended unconditionally, even when the user text
trims to empty (the blank filter only touches the prior history). -/
theorem buildMessagesForStream_last_turn (messages : List Message) (userContent : String)
    (files : Option (List AttachedFile)) (supportsVision : Bool) (provider : ProviderType) :
    buildMessagesForStream messages userContent files supportsVision provider ≠ [] ∧
    (buildMessagesForStream messages userContent files supportsVision provider).getLast?
      = some ⟨Role.user,
          if hasAttachments files && supportsVision then
            MessageContent.parts (formatMessageContent userContent (files.getD []) provider)
          else MessageContent.str userContent⟩ := by
  unfold buildMessagesForStream
  by_cases ha : hasAttachments files = true
  · by_cases hv : supportsVision = true
    · subst hv
      rw [ha]
      exact ⟨append_singleton_ne_nil _ _, getLast?_append_singleton _ _⟩
    · simp only [Bool.not_eq_true] at hv
      subst hv
      rw [ha]
      exact ⟨append_singleton_ne_nil _ _, getLast?_append_singleton _ _⟩
  · simp only [Bool.not_eq_true] at ha
    rw [ha]
    exact ⟨append_singleton_ne_nil _ _, getLast?_append_singleton _ _⟩

/-- Claim C8: the adapter is total and reaches no error branch — every
function is a total Lean definition, a string either matches the data-URL
grammar or parseDataUrl degrades to the image/png fallback, the provider
outside the policy table (ollama) falls through to the openai encoding, the
assembler always yields its 1 + n parts, and a missing attachment list behaves
as the empty one (the no-attachment branch). -/
theorem adapter_total_never_throws :
    (∀ s : String, MatchesDataUrlGrammar s.data ∨ parseDataUrl s = ⟨"image/png", trimStr s⟩) ∧
    (∀ file : AttachedFile, formatImageForProvider file ProviderType.ollama
        = formatImageForProvider file ProviderType.openai) ∧
    (∀ (text : String) (files : List AttachedFile) (provider : ProviderType),
        (formatMessageContent text files provider).length = files.length + 1) ∧
    (∀ (messages : List Message) (u : String) (v : Bool) (p : ProviderType),
        buildMessagesForStream messages u none v p
          = buildMessagesForStream messages u (some []) v p) := by
  refine ⟨?_, ?_, ?_, ?_⟩
  · intro s
    cases hm : matchDataUrl s.data with
    | none =>
      right
      unfold parseDataUrl
      rw [hm]
      rfl
    | some mp => exact Or.inl (matches_of_matchDataUrl_some s.data mp.1 mp.2 (by rw [hm]))
  · intro file
    rfl
  · intro text files provider
    simp [formatMessageContent]
  · intro messages u v p
    rfl
